import Mathlib

/-!
Verification of the NAV strike engine (`nav-strike-engine.ts`).

The engine is shallowly embedded: monetary and share quantities are exact
rationals (the spec's numeric policy mandates fixed-point/decimal arithmetic
with at least 6 fractional digits), ledger-gateway outcomes are an explicit
boolean oracle (`gw o` is whether the atomic settlement transaction for order
`o` confirms; `navPublishOk` is whether the NAV metadata publication
confirms), and wall-clock instants are minute counts (`HH:MM` schedule
entries become minutes after midnight; the code compares zero-padded `HH:MM`
strings lexicographically, which agrees with the numeric order).
-/

namespace NavStrikes

/-- Order kind: `"subscribe" | "redeem"` in the source. -/
inductive OrderType where
  | subscribe
  | redeem
deriving DecidableEq

/-- Order status: `"pending" | "executed" | "failed"` in the source. -/
inductive OrderStatus where
  | pending
  | executed
  | failed
deriving DecidableEq

/-- `StrikeOrder` from `types.ts`: one queued investor intent.
`investor` is an opaque identity handle, `strikeTime` the target strike
instant in minutes (next day = 1440 + minutes). -/
structure StrikeOrder where
  orderId : Nat
  investor : Nat
  orderType : OrderType
  amount : ℚ
  strikeTime : Nat
  status : OrderStatus
deriving DecidableEq

/-- The `NAVStrikeEngine` mutable fields (fund ledger state plus order
queue), as a value. -/
structure EngineState where
  currentNAV : ℚ
  totalAUM : ℚ
  totalSharesOutstanding : ℚ
  strikeSchedule : List Nat
  lastStrikeTime : Nat
  pendingOrders : List StrikeOrder
  orderCounter : Nat
deriving DecidableEq

/-- `BigInt(Math.floor(x * 1e6))`: the base-unit amount the engine submits
to the ledger for a computed economic amount `x`. -/
def floorMicro (x : ℚ) : Int := Int.floor (x * 1000000)

/-- `SubscriptionResult` from `types.ts`, extended with the two base-unit
leg amounts actually placed into the ledger instructions
(`transferChecked` of USDC and `mintTo` of shares). -/
structure SubscriptionResult where
  usdcAmount : ℚ
  sharesIssued : ℚ
  executionNAV : ℚ
  usdcLegMicro : Int
  sharesLegMicro : Int
deriving DecidableEq

/-- `RedemptionResult` from `types.ts`, extended with the two base-unit leg
amounts actually placed into the ledger instructions (`burn` of shares and
`transferChecked` of USDC). -/
structure RedemptionResult where
  sharesRedeemed : ℚ
  usdcPaid : ℚ
  executionNAV : ℚ
  sharesLegMicro : Int
  usdcLegMicro : Int
deriving DecidableEq

/-- `processSubscription` (success path): computes
`sharesToMint = usdcAmount / this.currentNAV`, submits the two legs, and
after the gateway confirms adds `usdcAmount` to `totalAUM` and
`sharesToMint` to `totalSharesOutstanding`.  The gateway-throw path is
handled by the caller (`executeStrike`), which leaves the state untouched,
exactly as the thrown exception prevents the post-`await` mutations. -/
def processSubscription (s : EngineState) (usdcAmount : ℚ) :
    SubscriptionResult × EngineState :=
  let sharesToMint := usdcAmount / s.currentNAV
  ({ usdcAmount := usdcAmount
     sharesIssued := sharesToMint
     executionNAV := s.currentNAV
     usdcLegMicro := floorMicro usdcAmount
     sharesLegMicro := floorMicro sharesToMint },
   { s with totalAUM := s.totalAUM + usdcAmount
            totalSharesOutstanding := s.totalSharesOutstanding + sharesToMint })

/-- `processRedemption` (success path): computes
`usdcToPay = shareAmount * this.currentNAV`, submits the two legs, and after
the gateway confirms subtracts `usdcToPay` from `totalAUM` and `shareAmount`
from `totalSharesOutstanding`. -/
def processRedemption (s : EngineState) (shareAmount : ℚ) :
    RedemptionResult × EngineState :=
  let usdcToPay := shareAmount * s.currentNAV
  ({ sharesRedeemed := shareAmount
     usdcPaid := usdcToPay
     executionNAV := s.currentNAV
     sharesLegMicro := floorMicro shareAmount
     usdcLegMicro := floorMicro usdcToPay },
   { s with totalAUM := s.totalAUM - usdcToPay
            totalSharesOutstanding := s.totalSharesOutstanding - shareAmount })

/-- The receipt `processSubscription` returns, as a function of the NAV it
read and the order amount (it depends on nothing else of the state). -/
def mkSubReceipt (nav a : ℚ) : SubscriptionResult :=
  { usdcAmount := a
    sharesIssued := a / nav
    executionNAV := nav
    usdcLegMicro := floorMicro a
    sharesLegMicro := floorMicro (a / nav) }

/-- The receipt `processRedemption` returns, as a function of the NAV it
read and the order amount. -/
def mkRedReceipt (nav a : ℚ) : RedemptionResult :=
  { sharesRedeemed := a
    usdcPaid := a * nav
    executionNAV := nav
    sharesLegMicro := floorMicro a
    usdcLegMicro := floorMicro (a * nav) }

/-- The `for (const order of subscriptions) try ... catch ...` loop: on
gateway success the state is updated and a receipt collected; on a gateway
throw the state is untouched and no receipt is produced (the `catch` only
sets the order status, which is applied by `markOrder` below). -/
def runSubscriptions (gw : StrikeOrder → Bool) :
    List StrikeOrder → EngineState → EngineState × List SubscriptionResult
  | [], s => (s, [])
  | o :: rest, s =>
    if gw o then
      let pr := processSubscription s o.amount
      let next := runSubscriptions gw rest pr.2
      (next.1, pr.1 :: next.2)
    else
      runSubscriptions gw rest s

/-- The `for (const order of redemptions) try ... catch ...` loop. -/
def runRedemptions (gw : StrikeOrder → Bool) :
    List StrikeOrder → EngineState → EngineState × List RedemptionResult
  | [], s => (s, [])
  | o :: rest, s =>
    if gw o then
      let pr := processRedemption s o.amount
      let next := runRedemptions gw rest pr.2
      (next.1, pr.1 :: next.2)
    else
      runRedemptions gw rest s

/-- Net effect of the strike loops on one order's status: a pending order
ends `executed` when its gateway transaction confirms and `failed` when it
throws (`order.status = "executed"` / `"failed"` in the loops); an order
that was not pending is not selected by either filter and keeps its
status. -/
def markOrder (gw : StrikeOrder → Bool) (o : StrikeOrder) : StrikeOrder :=
  if o.status = OrderStatus.pending then
    { o with status := if gw o then OrderStatus.executed else OrderStatus.failed }
  else o

/-- `StrikeResult` from `types.ts` (receipts stand in for the signature
list, carrying the per-order execution data). -/
structure StrikeResult where
  strikeTime : Nat
  nav : ℚ
  subscriptionsProcessed : Nat
  totalUSDCSubscribed : ℚ
  totalSharesMinted : ℚ
  redemptionsProcessed : Nat
  totalSharesRedeemed : ℚ
  totalUSDCPaid : ℚ
  subReceipts : List SubscriptionResult
  redReceipts : List RedemptionResult
deriving DecidableEq

/-- Steps 2-4 of `executeStrike`, after `updateNAV` has succeeded: filter
the pending subscriptions and redemptions from the queue, run the two
settlement loops, mark every processed order's status, keep only
still-pending orders in the queue, and assemble the `StrikeResult`. -/
def strikeSettle (s1 : EngineState) (gw : StrikeOrder → Bool) (now : Nat) :
    StrikeResult × EngineState :=
  let subs := s1.pendingOrders.filter
    (fun o => decide (o.orderType = OrderType.subscribe)
      && decide (o.status = OrderStatus.pending))
  let reds := s1.pendingOrders.filter
    (fun o => decide (o.orderType = OrderType.redeem)
      && decide (o.status = OrderStatus.pending))
  let sub := runSubscriptions gw subs s1
  let red := runRedemptions gw reds sub.1
  let marked := s1.pendingOrders.map (markOrder gw)
  ({ strikeTime := now
     nav := red.1.currentNAV
     subscriptionsProcessed := sub.2.length
     totalUSDCSubscribed := (sub.2.map (fun r => r.usdcAmount)).sum
     totalSharesMinted := (sub.2.map (fun r => r.sharesIssued)).sum
     redemptionsProcessed := red.2.length
     totalSharesRedeemed := (red.2.map (fun r => r.sharesRedeemed)).sum
     totalUSDCPaid := (red.2.map (fun r => r.usdcPaid)).sum
     subReceipts := sub.2
     redReceipts := red.2 },
   { red.1 with
       pendingOrders := marked.filter (fun o => o.status = OrderStatus.pending) })

/-- Outcome of `executeStrike`: a report and post state, or a propagated
exception from the NAV publication (`updateNAV`, step 1). -/
inductive StrikeOutcome where
  | ok (report : StrikeResult) (post : EngineState)
  | navPublishFailed (post : EngineState)
deriving DecidableEq

/-- `executeStrike(fundMint, usdcMint, newNAV)`.  `updateNAV` first assigns
`this.currentNAV = newNAV` and `this.lastStrikeTime = new Date()` and only
then submits the metadata-publication transaction; when that submission
throws, the exception propagates out of `executeStrike` with those two
fields already mutated and nothing else done. -/
def executeStrike (s : EngineState) (newNAV : ℚ) (now : Nat)
    (navPublishOk : Bool) (gw : StrikeOrder → Bool) : StrikeOutcome :=
  let s1 := { s with currentNAV := newNAV, lastStrikeTime := now }
  match navPublishOk with
  | false => StrikeOutcome.navPublishFailed s1
  | true =>
    let r := strikeSettle s1 gw now
    StrikeOutcome.ok r.1 r.2

/-- Orders of a queue that end this strike in the `executed` status: they
were pending and their settlement transaction confirmed. -/
def executedThisStrike (gw : StrikeOrder → Bool) (l : List StrikeOrder) :
    List StrikeOrder :=
  l.filter (fun o => decide (o.status = OrderStatus.pending) && gw o)

/-- The `totalAUM` delta one executed order contributes at the strike NAV:
`+amount` for a subscription, `-(amount * nav)` for a redemption. -/
def aumDelta (nav : ℚ) (o : StrikeOrder) : ℚ :=
  match o.orderType with
  | OrderType.subscribe => o.amount
  | OrderType.redeem => -(o.amount * nav)

/-- The `totalSharesOutstanding` delta one executed order contributes at
the strike NAV: `+amount / nav` for a subscription, `-amount` for a
redemption. -/
def sharesDelta (nav : ℚ) (o : StrikeOrder) : ℚ :=
  match o.orderType with
  | OrderType.subscribe => o.amount / nav
  | OrderType.redeem => -o.amount

/-- `getNextStrikeTime()`: scan the schedule in stored order for the first
entry strictly later than the current time-of-day `now`; if none, fall back
to `this.strikeSchedule[0]` on the following day (`1440 + ·`).  An empty
schedule makes the fallback throw (`undefined.split`), modelled as
`none`. -/
def getNextStrikeTime (schedule : List Nat) (now : Nat) : Option Nat :=
  match schedule.find? (fun t => decide (now < t)) with
  | some t => some t
  | none => schedule.head?.map (fun t => 1440 + t)

/-- Earliest entry of a schedule, if any. -/
def earliest? (l : List Nat) : Option Nat :=
  match l with
  | [] => none
  | t :: rest => some (rest.foldl Nat.min t)

/-- Modelled from the spec's words, for comparison with the code: the
scheduler sorts defensively, so it returns the earliest schedule entry
strictly later than `now`, and if none exists the earliest entry of the
schedule on the following day. -/
def specNextStrikeTime (schedule : List Nat) (now : Nat) : Option Nat :=
  match earliest? (schedule.filter (fun t => decide (now < t))) with
  | some t => some t
  | none => (earliest? schedule).map (fun t => 1440 + t)

/-- `queueOrder(investor, orderType, amount)`: assigns
`ORD-${++this.orderCounter}`, computes the target strike time, sets status
pending and appends.  There is no check on `amount`.  `none` only when the
strike-time computation throws (empty schedule). -/
def queueOrder (s : EngineState) (investor : Nat) (orderType : OrderType)
    (amount : ℚ) (now : Nat) : Option (StrikeOrder × EngineState) :=
  (getNextStrikeTime s.strikeSchedule now).map (fun st =>
    let order : StrikeOrder :=
      { orderId := s.orderCounter + 1
        investor := investor
        orderType := orderType
        amount := amount
        strikeTime := st
        status := OrderStatus.pending }
    (order,
     { s with pendingOrders := s.pendingOrders ++ [order]
              orderCounter := s.orderCounter + 1 }))

/-- Report of an `ok` strike outcome. -/
def strikeOkReport : StrikeOutcome → Option StrikeResult
  | StrikeOutcome.ok r _ => some r
  | StrikeOutcome.navPublishFailed _ => none

/-- Post state of an `ok` strike outcome. -/
def strikeOkPost : StrikeOutcome → Option EngineState
  | StrikeOutcome.ok _ p => some p
  | StrikeOutcome.navPublishFailed _ => none

/-- Post state of a failed NAV publication. -/
def strikeFailedPost : StrikeOutcome → Option EngineState
  | StrikeOutcome.ok _ _ => none
  | StrikeOutcome.navPublishFailed p => some p

/-- A JS array heap: cell `r` holds an order array.  Used to state the
aliasing behaviour of `getPendingOrders`. -/
structure OrderHeap where
  cells : List (List StrikeOrder)
deriving DecidableEq

/-- Read heap cell `r`. -/
def readCell (h : OrderHeap) (r : Nat) : List StrikeOrder :=
  h.cells.getD r []

/-- Overwrite heap cell `r` (an in-place mutation of that array, such as a
`push`/`pop`/`splice` performed by the caller on a returned array). -/
def writeCell (h : OrderHeap) (r : Nat) (v : List StrikeOrder) : OrderHeap :=
  ⟨h.cells.set r v⟩

/-- The engine as seen by `getPendingOrders`: it holds a reference to the
array behind `this.pendingOrders`. -/
structure EngineRef where
  queueRef : Nat
deriving DecidableEq

/-- `getPendingOrders(): return [...this.pendingOrders]` — allocates a
fresh array whose contents are copied from the engine's queue array, and
returns a reference to the fresh array. -/
def getPendingOrders (e : EngineRef) (h : OrderHeap) : Nat × OrderHeap :=
  (h.cells.length, ⟨h.cells ++ [readCell h e.queueRef]⟩)

/-- Concrete pending subscription order used in witnesses. -/
def wOrderSub : StrikeOrder :=
  { orderId := 1, investor := 7, orderType := OrderType.subscribe
    amount := 250, strikeTime := 570, status := OrderStatus.pending }

/-- Concrete pending redemption order used in witnesses. -/
def wOrderRed : StrikeOrder :=
  { orderId := 2, investor := 8, orderType := OrderType.redeem
    amount := 50, strikeTime := 570, status := OrderStatus.pending }

/-- Concrete engine state used in witnesses and counterexamples. -/
def wState : EngineState :=
  { currentNAV := 1, totalAUM := 400, totalSharesOutstanding := 400
    strikeSchedule := [570, 720], lastStrikeTime := 0
    pendingOrders := [wOrderSub, wOrderRed], orderCounter := 2 }

/-- Gateway oracle that confirms every settlement. -/
def gwAll : StrikeOrder → Bool := fun _ => true

/-- Gateway oracle under which order 2's settlement submission throws. -/
def gwFail2 : StrikeOrder → Bool := fun o => decide (o.orderId ≠ 2)

/-- `wState` with NAV 3, for the truncation counterexample. -/
def wStateNav3 : EngineState := { wState with currentNAV := 3 }

/-- The pending subscriptions snapshot taken by `executeStrike`. -/
def strikePendingSubs (s1 : EngineState) : List StrikeOrder :=
  s1.pendingOrders.filter
    (fun o => decide (o.orderType = OrderType.subscribe)
      && decide (o.status = OrderStatus.pending))

/-- The pending redemptions snapshot taken by `executeStrike`. -/
def strikePendingReds (s1 : EngineState) : List StrikeOrder :=
  s1.pendingOrders.filter
    (fun o => decide (o.orderType = OrderType.redeem)
      && decide (o.status = OrderStatus.pending))

/-- Placeholder report for extracting components of a known-ok outcome. -/
def dummyReport : StrikeResult :=
  { strikeTime := 0, nav := 1, subscriptionsProcessed := 0
    totalUSDCSubscribed := 0, totalSharesMinted := 0, redemptionsProcessed := 0
    totalSharesRedeemed := 0, totalUSDCPaid := 0, subReceipts := []
    redReceipts := [] }

/-- Placeholder state for extracting components of a known outcome. -/
def dummyState : EngineState :=
  { currentNAV := 1, totalAUM := 0, totalSharesOutstanding := 0
    strikeSchedule := [], lastStrikeTime := 0, pendingOrders := []
    orderCounter := 0 }

/-- Concrete strike in which every settlement confirms. -/
def wOut1 : StrikeOutcome := executeStrike wState 2 600 true gwAll

/-- Report of `wOut1`. -/
def wRep1 : StrikeResult := (strikeOkReport wOut1).getD dummyReport

/-- Post state of `wOut1`. -/
def wPost1 : EngineState := (strikeOkPost wOut1).getD dummyState

/-- Concrete strike in which order 2's settlement submission throws. -/
def wOut2 : StrikeOutcome := executeStrike wState 2 600 true gwFail2

/-- Report of `wOut2`. -/
def wRep2 : StrikeResult := (strikeOkReport wOut2).getD dummyReport

/-- Post state of `wOut2`. -/
def wPost2 : EngineState := (strikeOkPost wOut2).getD dummyState

/-- Concrete heap whose cell 0 is the engine queue array. -/
def wHeap : OrderHeap := ⟨[[wOrderSub, wOrderRed]]⟩

/-- Concrete engine reference for the heap model. -/
def wEngineRef : EngineRef := ⟨0⟩

end NavStrikes

namespace NavStrikes

theorem runSubscriptions_spec (gw : StrikeOrder → Bool) (l : List StrikeOrder)
    (s : EngineState) :
    (runSubscriptions gw l s).1.currentNAV = s.currentNAV
    ∧ (runSubscriptions gw l s).1.strikeSchedule = s.strikeSchedule
    ∧ (runSubscriptions gw l s).1.lastStrikeTime = s.lastStrikeTime
    ∧ (runSubscriptions gw l s).1.pendingOrders = s.pendingOrders
    ∧ (runSubscriptions gw l s).1.orderCounter = s.orderCounter
    ∧ (runSubscriptions gw l s).1.totalAUM
        = s.totalAUM + ((l.filter gw).map (fun o => o.amount)).sum
    ∧ (runSubscriptions gw l s).1.totalSharesOutstanding
        = s.totalSharesOutstanding
          + ((l.filter gw).map (fun o => o.amount / s.currentNAV)).sum
    ∧ (runSubscriptions gw l s).2
        = (l.filter gw).map (fun o => mkSubReceipt s.currentNAV o.amount) := by
  induction l generalizing s with
  | nil => simp [runSubscriptions]
  | cons o rest ih =>
    cases hgw : gw o with
    | false =>
      simpa [runSubscriptions, hgw] using ih s
    | true =>
      have h := ih ({ s with
        totalAUM := s.totalAUM + o.amount
        totalSharesOutstanding := s.totalSharesOutstanding + o.amount / s.currentNAV })
      simp only [runSubscriptions, hgw, processSubscription] at h ⊢
      obtain ⟨h1, h2, h3, h4, h5, h6, h7, h8⟩ := h
      refine ⟨h1, h2, h3, h4, h5, ?_, ?_, ?_⟩
      · simp [h6, List.filter_cons, hgw, add_assoc]
      · simp [h7, List.filter_cons, hgw, add_assoc]
      · simp [h8, List.filter_cons, hgw, mkSubReceipt]

end NavStrikes

namespace NavStrikes

theorem runRedemptions_spec (gw : StrikeOrder → Bool) (l : List StrikeOrder)
    (s : EngineState) :
    (runRedemptions gw l s).1.currentNAV = s.currentNAV
    ∧ (runRedemptions gw l s).1.strikeSchedule = s.strikeSchedule
    ∧ (runRedemptions gw l s).1.lastStrikeTime = s.lastStrikeTime
    ∧ (runRedemptions gw l s).1.pendingOrders = s.pendingOrders
    ∧ (runRedemptions gw l s).1.orderCounter = s.orderCounter
    ∧ (runRedemptions gw l s).1.totalAUM
        = s.totalAUM - ((l.filter gw).map (fun o => o.amount * s.currentNAV)).sum
    ∧ (runRedemptions gw l s).1.totalSharesOutstanding
        = s.totalSharesOutstanding - ((l.filter gw).map (fun o => o.amount)).sum
    ∧ (runRedemptions gw l s).2
        = (l.filter gw).map (fun o => mkRedReceipt s.currentNAV o.amount) := by
  induction l generalizing s with
  | nil => simp [runRedemptions]
  | cons o rest ih =>
    cases hgw : gw o with
    | false =>
      simpa [runRedemptions, hgw] using ih s
    | true =>
      have h := ih ({ s with
        totalAUM := s.totalAUM - o.amount * s.currentNAV
        totalSharesOutstanding := s.totalSharesOutstanding - o.amount })
      simp only [runRedemptions, hgw, processRedemption] at h ⊢
      obtain ⟨h1, h2, h3, h4, h5, h6, h7, h8⟩ := h
      refine ⟨h1, h2, h3, h4, h5, ?_, ?_, ?_⟩
      · simp [h6, List.filter_cons, hgw, sub_sub]
      · simp [h7, List.filter_cons, hgw, sub_sub]
      · simp [h8, List.filter_cons, hgw, mkRedReceipt]

end NavStrikes

namespace NavStrikes


theorem strikeSettle_def2 (s1 : EngineState) (gw : StrikeOrder → Bool) (now : Nat) :
    (strikeSettle s1 gw now).2 =
      { (runRedemptions gw (strikePendingReds s1)
            (runSubscriptions gw (strikePendingSubs s1) s1).1).1 with
          pendingOrders := (s1.pendingOrders.map (markOrder gw)).filter
            (fun o => o.status = OrderStatus.pending) } := rfl

theorem strikeSettle_def1 (s1 : EngineState) (gw : StrikeOrder → Bool) (now : Nat) :
    (strikeSettle s1 gw now).1 =
      { strikeTime := now
        nav := (runRedemptions gw (strikePendingReds s1)
            (runSubscriptions gw (strikePendingSubs s1) s1).1).1.currentNAV
        subscriptionsProcessed :=
          (runSubscriptions gw (strikePendingSubs s1) s1).2.length
        totalUSDCSubscribed :=
          ((runSubscriptions gw (strikePendingSubs s1) s1).2.map
            (fun r => r.usdcAmount)).sum
        totalSharesMinted :=
          ((runSubscriptions gw (strikePendingSubs s1) s1).2.map
            (fun r => r.sharesIssued)).sum
        redemptionsProcessed :=
          (runRedemptions gw (strikePendingReds s1)
            (runSubscriptions gw (strikePendingSubs s1) s1).1).2.length
        totalSharesRedeemed :=
          ((runRedemptions gw (strikePendingReds s1)
            (runSubscriptions gw (strikePendingSubs s1) s1).1).2.map
            (fun r => r.sharesRedeemed)).sum
        totalUSDCPaid :=
          ((runRedemptions gw (strikePendingReds s1)
            (runSubscriptions gw (strikePendingSubs s1) s1).1).2.map
            (fun r => r.usdcPaid)).sum
        subReceipts := (runSubscriptions gw (strikePendingSubs s1) s1).2
        redReceipts := (runRedemptions gw (strikePendingReds s1)
            (runSubscriptions gw (strikePendingSubs s1) s1).1).2 } := rfl

theorem strikeSettle_spec (s1 : EngineState) (gw : StrikeOrder → Bool) (now : Nat) :
    (strikeSettle s1 gw now).2.currentNAV = s1.currentNAV
    ∧ (strikeSettle s1 gw now).2.totalAUM
        = s1.totalAUM
          + (((strikePendingSubs s1).filter gw).map (fun o => o.amount)).sum
          - (((strikePendingReds s1).filter gw).map
              (fun o => o.amount * s1.currentNAV)).sum
    ∧ (strikeSettle s1 gw now).2.totalSharesOutstanding
        = s1.totalSharesOutstanding
          + (((strikePendingSubs s1).filter gw).map
              (fun o => o.amount / s1.currentNAV)).sum
          - (((strikePendingReds s1).filter gw).map (fun o => o.amount)).sum
    ∧ (strikeSettle s1 gw now).2.pendingOrders
        = (s1.pendingOrders.map (markOrder gw)).filter
            (fun o => o.status = OrderStatus.pending)
    ∧ (strikeSettle s1 gw now).1.nav = s1.currentNAV
    ∧ (strikeSettle s1 gw now).1.subReceipts
        = ((strikePendingSubs s1).filter gw).map
            (fun o => mkSubReceipt s1.currentNAV o.amount)
    ∧ (strikeSettle s1 gw now).1.redReceipts
        = ((strikePendingReds s1).filter gw).map
            (fun o => mkRedReceipt s1.currentNAV o.amount) := by
  obtain ⟨a1, a2, a3, a4, a5, a6, a7, a8⟩ :=
    runSubscriptions_spec gw (strikePendingSubs s1) s1
  obtain ⟨b1, b2, b3, b4, b5, b6, b7, b8⟩ :=
    runRedemptions_spec gw (strikePendingReds s1)
      (runSubscriptions gw (strikePendingSubs s1) s1).1
  rw [strikeSettle_def2, strikeSettle_def1]
  simp only [a1] at b6 b8
  refine ⟨by simp [b1, a1], by simp [b6, a6], by simp [b7, a7], by simp,
    by simp [b1, a1], by simp [a8, a1], by simp [b8]⟩

theorem executeStrike_true_eq (s : EngineState) (newNAV : ℚ) (now : Nat)
    (gw : StrikeOrder → Bool) :
    executeStrike s newNAV now true gw =
      StrikeOutcome.ok
        (strikeSettle { s with currentNAV := newNAV, lastStrikeTime := now } gw now).1
        (strikeSettle { s with currentNAV := newNAV, lastStrikeTime := now } gw now).2 := rfl

theorem executeStrike_false_eq (s : EngineState) (newNAV : ℚ) (now : Nat)
    (gw : StrikeOrder → Bool) :
    executeStrike s newNAV now false gw =
      StrikeOutcome.navPublishFailed
        { s with currentNAV := newNAV, lastStrikeTime := now } := rfl

end NavStrikes

namespace NavStrikes

theorem sum_aumDelta_split (l : List StrikeOrder) (gw : StrikeOrder → Bool)
    (nav : ℚ) :
    ((executedThisStrike gw l).map (aumDelta nav)).sum
      = (((l.filter (fun o => decide (o.orderType = OrderType.subscribe)
              && decide (o.status = OrderStatus.pending))).filter gw).map
          (fun o => o.amount)).sum
        - (((l.filter (fun o => decide (o.orderType = OrderType.redeem)
              && decide (o.status = OrderStatus.pending))).filter gw).map
            (fun o => o.amount * nav)).sum := by
  induction l with
  | nil => simp [executedThisStrike]
  | cons o rest ih =>
    simp only [executedThisStrike, List.filter_filter] at ih
    cases ho : o.orderType <;> cases hs : o.status <;> cases hgw : gw o <;>
      simp [executedThisStrike, List.filter_filter, List.filter_cons, ho, hs,
        hgw, aumDelta, ih] <;>
      ring

theorem sum_sharesDelta_split (l : List StrikeOrder) (gw : StrikeOrder → Bool)
    (nav : ℚ) :
    ((executedThisStrike gw l).map (sharesDelta nav)).sum
      = (((l.filter (fun o => decide (o.orderType = OrderType.subscribe)
              && decide (o.status = OrderStatus.pending))).filter gw).map
          (fun o => o.amount / nav)).sum
        - (((l.filter (fun o => decide (o.orderType = OrderType.redeem)
              && decide (o.status = OrderStatus.pending))).filter gw).map
            (fun o => o.amount)).sum := by
  induction l with
  | nil => simp [executedThisStrike]
  | cons o rest ih =>
    simp only [executedThisStrike, List.filter_filter] at ih
    cases ho : o.orderType <;> cases hs : o.status <;> cases hgw : gw o <;>
      simp [executedThisStrike, List.filter_filter, List.filter_cons, ho, hs,
        hgw, sharesDelta, ih] <;>
      ring

theorem markOrder_pending_terminal (gw : StrikeOrder → Bool) (o : StrikeOrder)
    (h : o.status = OrderStatus.pending) :
    (markOrder gw o).status
      = (if gw o then OrderStatus.executed else OrderStatus.failed) := by
  simp [markOrder, h]

theorem markOrder_not_pending (gw : StrikeOrder → Bool) (o : StrikeOrder)
    (h : o.status ≠ OrderStatus.pending) : markOrder gw o = o := by
  simp [markOrder, h]

end NavStrikes

namespace NavStrikes

theorem foldl_min_eq_self (l : List Nat) (t : Nat) (h : ∀ x ∈ l, t ≤ x) :
    l.foldl Nat.min t = t := by
  induction l with
  | nil => rfl
  | cons x xs ih =>
    have hx : Nat.min t x = t := Nat.min_eq_left (h x (List.mem_cons_self x xs))
    simpa [hx] using ih (fun y hy => h y (List.mem_cons_of_mem x hy))

theorem sorted_head_eq_earliest (l : List Nat) (hs : l.Sorted (· ≤ ·)) :
    earliest? l = l.head? := by
  cases l with
  | nil => rfl
  | cons t rest =>
    obtain ⟨h1, _⟩ := List.sorted_cons.mp hs
    simp [earliest?, foldl_min_eq_self rest t h1]

theorem sorted_find_eq_earliest (l : List Nat) (now : Nat)
    (hs : l.Sorted (· ≤ ·)) :
    l.find? (fun t => decide (now < t))
      = earliest? (l.filter (fun t => decide (now < t))) := by
  induction l with
  | nil => rfl
  | cons t rest ih =>
    obtain ⟨h1, h2⟩ := List.sorted_cons.mp hs
    by_cases hnt : now < t
    · have hmin : (rest.filter (fun t => decide (now < t))).foldl Nat.min t = t := by
        refine foldl_min_eq_self _ _ (fun y hy => ?_)
        exact h1 y (List.mem_of_mem_filter hy)
      simp [List.find?, List.filter_cons, hnt, earliest?, hmin]
    · simp [List.find?, List.filter_cons, hnt, ih h2]

theorem getNextStrikeTime_sorted (schedule : List Nat) (now : Nat)
    (hs : schedule.Sorted (· ≤ ·)) :
    getNextStrikeTime schedule now = specNextStrikeTime schedule now := by
  unfold getNextStrikeTime specNextStrikeTime
  rw [sorted_find_eq_earliest schedule now hs, sorted_head_eq_earliest schedule hs]

theorem getNextStrikeTime_isSome (schedule : List Nat) (now : Nat)
    (hne : schedule ≠ []) : (getNextStrikeTime schedule now).isSome = true := by
  unfold getNextStrikeTime
  cases hf : schedule.find? (fun t => decide (now < t)) with
  | some t => rfl
  | none =>
    cases schedule with
    | nil => exact absurd rfl hne
    | cons t rest => simp

end NavStrikes

namespace NavStrikes

theorem cells_getD_append_lt {α : Type} (l l' : List α) (n : Nat) (d : α)
    (h : n < l.length) : (l ++ l').getD n d = l.getD n d := by
  induction l generalizing n with
  | nil => simp at h
  | cons x xs ih =>
    cases n with
    | zero => rfl
    | succ m =>
      have hm : m < xs.length := by simpa using h
      simpa [List.getD] using ih m hm

theorem cells_getD_append_self {α : Type} (l : List α) (x d : α) :
    (l ++ [x]).getD l.length d = x := by
  induction l with
  | nil => rfl
  | cons a as ih => simpa [List.getD] using ih

theorem cells_getD_set_ne {α : Type} (l : List α) (i j : Nat) (v d : α)
    (h : i ≠ j) : (l.set i v).getD j d = l.getD j d := by
  induction l generalizing i j with
  | nil => rfl
  | cons a as ih =>
    cases i with
    | zero =>
      cases j with
      | zero => exact absurd rfl h
      | succ m => rfl
    | succ i' =>
      cases j with
      | zero => rfl
      | succ j' =>
        have : i' ≠ j' := fun hh => h (by rw [hh])
        simpa [List.getD] using ih i' j' this

end NavStrikes

namespace NavStrikes

/-- C1: after a strike, `totalAUM` and `totalSharesOutstanding` equal their
pre-strike values plus the sum of deltas contributed by exactly the orders
that ended Executed: an executed subscription contributes `+amount` to
`totalAUM` and `+amount / fixedNAV` to `totalSharesOutstanding`, an executed
redemption contributes `-(amount * fixedNAV)` and `-amount`, and failed
orders contribute zero.  The equality is exact in the embedding's exact
(fixed-point style) arithmetic.  `0 < newNAV` restricts to the domain where
the division is meaningful. -/
theorem executeStrike_conserves_totals (s : EngineState) (newNAV : ℚ)
    (now : Nat) (gw : StrikeOrder → Bool) (rep : StrikeResult)
    (s' : EngineState) (hnav : 0 < newNAV)
    (hok : executeStrike s newNAV now true gw = StrikeOutcome.ok rep s') :
    s'.totalAUM = s.totalAUM
        + ((executedThisStrike gw s.pendingOrders).map (aumDelta newNAV)).sum
    ∧ s'.totalSharesOutstanding = s.totalSharesOutstanding
        + ((executedThisStrike gw s.pendingOrders).map (sharesDelta newNAV)).sum := by
  rw [executeStrike_true_eq] at hok
  injection hok with h1 h2
  subst h1
  subst h2
  obtain ⟨c1, c2, c3, c4, c5, c6, c7⟩ :=
    strikeSettle_spec { s with currentNAV := newNAV, lastStrikeTime := now } gw now
  constructor
  · rw [c2, sum_aumDelta_split, add_sub_assoc]
    rfl
  · rw [c3, sum_sharesDelta_split, add_sub_assoc]
    rfl

/-- Witness for C1 at a concrete strike: two pending orders (a 250
subscription and a 50-share redemption) settled at NAV 2. -/
theorem executeStrike_conserves_totals_witness :
    wPost1.totalAUM = wState.totalAUM
        + ((executedThisStrike gwAll wState.pendingOrders).map (aumDelta 2)).sum
    ∧ wPost1.totalSharesOutstanding = wState.totalSharesOutstanding
        + ((executedThisStrike gwAll wState.pendingOrders).map (sharesDelta 2)).sum :=
  executeStrike_conserves_totals wState 2 600 gwAll wRep1 wPost1
    (by norm_num) rfl

end NavStrikes

namespace NavStrikes

/-- C2: every receipt produced within one strike records the same
`executionNAV`, equal to the NAV fixed at the start of that strike (the
report's `nav` also equals it); a later strike with a different NAV cannot
affect the receipts of this one, which depend only on this call's
`newNAV`. -/
theorem executeStrike_single_price (s : EngineState) (newNAV : ℚ) (now : Nat)
    (gw : StrikeOrder → Bool) (rep : StrikeResult) (s' : EngineState)
    (hok : executeStrike s newNAV now true gw = StrikeOutcome.ok rep s') :
    rep.nav = newNAV
    ∧ (∀ r ∈ rep.subReceipts, r.executionNAV = newNAV)
    ∧ (∀ r ∈ rep.redReceipts, r.executionNAV = newNAV) := by
  rw [executeStrike_true_eq] at hok
  injection hok with h1 h2
  subst h1
  subst h2
  obtain ⟨c1, c2, c3, c4, c5, c6, c7⟩ :=
    strikeSettle_spec { s with currentNAV := newNAV, lastStrikeTime := now } gw now
  refine ⟨c5, ?_, ?_⟩
  · intro r hr
    rw [c6] at hr
    obtain ⟨o, ho, rfl⟩ := List.mem_map.mp hr
    rfl
  · intro r hr
    rw [c7] at hr
    obtain ⟨o, ho, rfl⟩ := List.mem_map.mp hr
    rfl

/-- Witness for C2 at a concrete strike of NAV 2 over one subscription and
one redemption. -/
theorem executeStrike_single_price_witness :
    wRep1.nav = 2
    ∧ (∀ r ∈ wRep1.subReceipts, r.executionNAV = 2)
    ∧ (∀ r ∈ wRep1.redReceipts, r.executionNAV = 2) :=
  executeStrike_single_price wState 2 600 gwAll wRep1 wPost1 rfl

/-- C3: after `executeStrike` returns, every order that was pending before
the strike (in particular every one whose target strike time is at or
before the strike) has been marked executed or failed and is no longer in
the queue; every order remaining in the queue is pending; and pre-existing
terminal (executed or failed) orders have been purged; an order whose
marked status were still pending would be kept. -/
theorem executeStrike_settles_pending (s : EngineState) (newNAV : ℚ)
    (now : Nat) (gw : StrikeOrder → Bool) (rep : StrikeResult)
    (s' : EngineState)
    (hok : executeStrike s newNAV now true gw = StrikeOutcome.ok rep s') :
    (∀ o ∈ s.pendingOrders, o.status = OrderStatus.pending →
      o.strikeTime ≤ now →
        ((markOrder gw o).status = OrderStatus.executed
          ∨ (markOrder gw o).status = OrderStatus.failed)
        ∧ markOrder gw o ∉ s'.pendingOrders)
    ∧ (∀ o ∈ s'.pendingOrders, o.status = OrderStatus.pending)
    ∧ (∀ o ∈ s.pendingOrders,
        o.status = OrderStatus.executed ∨ o.status = OrderStatus.failed →
          o ∉ s'.pendingOrders)
    ∧ (∀ o ∈ s.pendingOrders, (markOrder gw o).status = OrderStatus.pending →
        markOrder gw o ∈ s'.pendingOrders) := by
  rw [executeStrike_true_eq] at hok
  injection hok with h1 h2
  subst h1
  subst h2
  obtain ⟨c1, c2, c3, c4, c5, c6, c7⟩ :=
    strikeSettle_spec { s with currentNAV := newNAV, lastStrikeTime := now } gw now
  have hmem : ∀ o,
      o ∈ (strikeSettle { s with currentNAV := newNAV, lastStrikeTime := now }
        gw now).2.pendingOrders →
      o.status = OrderStatus.pending := by
    intro o ho
    rw [c4] at ho
    simpa using (List.mem_filter.mp ho).2
  refine ⟨?_, hmem, ?_, ?_⟩
  · intro o ho hp ht
    have hterm : (markOrder gw o).status = OrderStatus.executed
        ∨ (markOrder gw o).status = OrderStatus.failed := by
      rw [markOrder_pending_terminal gw o hp]
      cases gw o <;> simp
    refine ⟨hterm, fun hin => ?_⟩
    have := hmem _ hin
    rcases hterm with h | h <;> rw [this] at h <;> exact absurd h (by simp)
  · intro o ho hterm hin
    have := hmem _ hin
    rcases hterm with h | h <;> rw [this] at h <;> exact absurd h (by simp)
  · intro o ho hpend
    rw [c4]
    refine List.mem_filter.mpr ⟨List.mem_map.mpr ⟨o, ho, rfl⟩, by simpa using hpend⟩

/-- Witness for C3 at a concrete strike over one pending subscription and
one pending redemption. -/
theorem executeStrike_settles_pending_witness :
    (∀ o ∈ wState.pendingOrders, o.status = OrderStatus.pending →
      o.strikeTime ≤ 600 →
        ((markOrder gwAll o).status = OrderStatus.executed
          ∨ (markOrder gwAll o).status = OrderStatus.failed)
        ∧ markOrder gwAll o ∉ wPost1.pendingOrders)
    ∧ (∀ o ∈ wPost1.pendingOrders, o.status = OrderStatus.pending)
    ∧ (∀ o ∈ wState.pendingOrders,
        o.status = OrderStatus.executed ∨ o.status = OrderStatus.failed →
          o ∉ wPost1.pendingOrders)
    ∧ (∀ o ∈ wState.pendingOrders,
        (markOrder gwAll o).status = OrderStatus.pending →
          markOrder gwAll o ∈ wPost1.pendingOrders) :=
  executeStrike_settles_pending wState 2 600 gwAll wRep1 wPost1 rfl

end NavStrikes

namespace NavStrikes

/-- C4: an order whose settlement submission throws is marked failed and
contributes nothing to the ledger totals, while every other pending order
whose submission confirms is still attempted and ends executed — the final
totals are the pre-strike values plus the deltas of the executed orders
only, so one order's failure never aborts the strike. -/
theorem executeStrike_failure_isolated (s : EngineState) (newNAV : ℚ)
    (now : Nat) (gw : StrikeOrder → Bool) (rep : StrikeResult)
    (s' : EngineState) (hnav : 0 < newNAV)
    (hok : executeStrike s newNAV now true gw = StrikeOutcome.ok rep s') :
    (∀ o ∈ s.pendingOrders, o.status = OrderStatus.pending → gw o = false →
      (markOrder gw o).status = OrderStatus.failed)
    ∧ (∀ o ∈ s.pendingOrders, o.status = OrderStatus.pending → gw o = true →
      (markOrder gw o).status = OrderStatus.executed)
    ∧ s'.totalAUM = s.totalAUM
        + ((executedThisStrike gw s.pendingOrders).map (aumDelta newNAV)).sum
    ∧ s'.totalSharesOutstanding = s.totalSharesOutstanding
        + ((executedThisStrike gw s.pendingOrders).map (sharesDelta newNAV)).sum := by
  rw [executeStrike_true_eq] at hok
  injection hok with h1 h2
  subst h1
  subst h2
  obtain ⟨c1, c2, c3, c4, c5, c6, c7⟩ :=
    strikeSettle_spec { s with currentNAV := newNAV, lastStrikeTime := now } gw now
  refine ⟨?_, ?_, ?_, ?_⟩
  · intro o ho hp hgw
    rw [markOrder_pending_terminal gw o hp, hgw]
    rfl
  · intro o ho hp hgw
    rw [markOrder_pending_terminal gw o hp, hgw]
    rfl
  · rw [c2, sum_aumDelta_split, add_sub_assoc]
    rfl
  · rw [c3, sum_sharesDelta_split, add_sub_assoc]
    rfl

/-- Witness for C4 at a concrete strike in which the redemption order's
submission throws (`gwFail2`) and the subscription order settles. -/
theorem executeStrike_failure_isolated_witness :
    (∀ o ∈ wState.pendingOrders, o.status = OrderStatus.pending →
      gwFail2 o = false → (markOrder gwFail2 o).status = OrderStatus.failed)
    ∧ (∀ o ∈ wState.pendingOrders, o.status = OrderStatus.pending →
      gwFail2 o = true → (markOrder gwFail2 o).status = OrderStatus.executed)
    ∧ wPost2.totalAUM = wState.totalAUM
        + ((executedThisStrike gwFail2 wState.pendingOrders).map (aumDelta 2)).sum
    ∧ wPost2.totalSharesOutstanding = wState.totalSharesOutstanding
        + ((executedThisStrike gwFail2 wState.pendingOrders).map
            (sharesDelta 2)).sum :=
  executeStrike_failure_isolated wState 2 600 gwFail2 wRep2 wPost2
    (by norm_num) rfl

end NavStrikes

namespace NavStrikes

/-- C5 counterexample: with a failed NAV publication, the post state's
`currentNAV` is the new NAV (2), not the pre-call value (1) — `updateNAV`
assigns `this.currentNAV` and `this.lastStrikeTime` before submitting the
publication transaction, so the claim that `currentNAV` and
`lastStrikeTime` are unchanged on a publish failure is false. -/
theorem navPublishFailure_mutates_nav_counterexample :
    (strikeFailedPost (executeStrike wState 2 600 false gwAll)).map
        (fun p => p.currentNAV) = some 2
    ∧ wState.currentNAV = 1
    ∧ (strikeFailedPost (executeStrike wState 2 600 false gwAll)).map
        (fun p => p.lastStrikeTime) = some 600
    ∧ wState.lastStrikeTime = 0 := ⟨rfl, rfl, rfl, rfl⟩

/-- C5 (amended): if publishing the NAV fails, the strike aborts with no
orders processed — `totalAUM`, `totalSharesOutstanding`, the order queue
and every order status are unchanged — but `currentNAV` and
`lastStrikeTime` have already been set to the new values before the
publish attempt and keep them. -/
theorem navPublishFailure_aborts_strike (s : EngineState) (newNAV : ℚ)
    (now : Nat) (gw : StrikeOrder → Bool) (s' : EngineState)
    (hfail : executeStrike s newNAV now false gw
      = StrikeOutcome.navPublishFailed s') :
    s'.totalAUM = s.totalAUM
    ∧ s'.totalSharesOutstanding = s.totalSharesOutstanding
    ∧ s'.pendingOrders = s.pendingOrders
    ∧ s'.strikeSchedule = s.strikeSchedule
    ∧ s'.orderCounter = s.orderCounter
    ∧ s'.currentNAV = newNAV
    ∧ s'.lastStrikeTime = now := by
  rw [executeStrike_false_eq] at hfail
  injection hfail with h
  subst h
  exact ⟨rfl, rfl, rfl, rfl, rfl, rfl, rfl⟩

/-- Witness for the amended C5 at a concrete failed publication. -/
theorem navPublishFailure_aborts_strike_witness :
    ({ wState with currentNAV := 2, lastStrikeTime := 600 } : EngineState).totalAUM
        = wState.totalAUM
    ∧ ({ wState with currentNAV := 2, lastStrikeTime := 600 } : EngineState).totalSharesOutstanding
        = wState.totalSharesOutstanding
    ∧ ({ wState with currentNAV := 2, lastStrikeTime := 600 } : EngineState).pendingOrders
        = wState.pendingOrders
    ∧ ({ wState with currentNAV := 2, lastStrikeTime := 600 } : EngineState).strikeSchedule
        = wState.strikeSchedule
    ∧ ({ wState with currentNAV := 2, lastStrikeTime := 600 } : EngineState).orderCounter
        = wState.orderCounter
    ∧ ({ wState with currentNAV := 2, lastStrikeTime := 600 } : EngineState).currentNAV = 2
    ∧ ({ wState with currentNAV := 2, lastStrikeTime := 600 } : EngineState).lastStrikeTime = 600 :=
  navPublishFailure_aborts_strike wState 2 600 gwAll
    { wState with currentNAV := 2, lastStrikeTime := 600 } rfl

end NavStrikes

namespace NavStrikes

/-- C6 counterexample: `executeStrike` with `newNAV = -1` does not fail
with a validation error; it returns a report, sets `currentNAV` to `-1`
(the pre-call value was 1) and processes the pending subscription — the
code contains no `newNAV > 0` check. -/
theorem executeStrike_negative_nav_counterexample :
    (strikeOkPost (executeStrike wState (-1) 600 true gwAll)).map
        (fun p => p.currentNAV) = some (-1)
    ∧ (strikeOkReport (executeStrike wState (-1) 600 true gwAll)).map
        (fun r => r.subscriptionsProcessed) = some 1
    ∧ wState.currentNAV = 1 := ⟨rfl, rfl, rfl⟩

/-- C6 (amended): `executeStrike` performs no validation of `newNAV`; for
every `newNAV ≤ 0` the strike still proceeds (provided the NAV publication
itself confirms): it returns a report rather than aborting, and the post
state's `currentNAV` and `lastStrikeTime` are set to `newNAV` and the
strike time. -/
theorem executeStrike_no_nav_validation (s : EngineState) (newNAV : ℚ)
    (now : Nat) (gw : StrikeOrder → Bool) (hnav : newNAV ≤ 0) :
    (strikeOkReport (executeStrike s newNAV now true gw)).isSome = true
    ∧ (strikeOkPost (executeStrike s newNAV now true gw)).map
        (fun p => p.currentNAV) = some newNAV
    ∧ (strikeOkPost (executeStrike s newNAV now true gw)).map
        (fun p => p.lastStrikeTime) = some now := by
  obtain ⟨a1, a2, a3, a4, a5, a6, a7, a8⟩ :=
    runSubscriptions_spec gw
      (strikePendingSubs { s with currentNAV := newNAV, lastStrikeTime := now })
      { s with currentNAV := newNAV, lastStrikeTime := now }
  obtain ⟨b1, b2, b3, b4, b5, b6, b7, b8⟩ :=
    runRedemptions_spec gw
      (strikePendingReds { s with currentNAV := newNAV, lastStrikeTime := now })
      (runSubscriptions gw
        (strikePendingSubs { s with currentNAV := newNAV, lastStrikeTime := now })
        { s with currentNAV := newNAV, lastStrikeTime := now }).1
  rw [executeStrike_true_eq]
  refine ⟨rfl, ?_, ?_⟩
  · simp only [strikeOkPost, Option.map_some', strikeSettle_def2]
    rw [b1, a1]
  · simp only [strikeOkPost, Option.map_some', strikeSettle_def2]
    rw [b3, a3]

/-- Witness for the amended C6 at `newNAV = -1`. -/
theorem executeStrike_no_nav_validation_witness :
    (strikeOkReport (executeStrike wState (-1) 600 true gwAll)).isSome = true
    ∧ (strikeOkPost (executeStrike wState (-1) 600 true gwAll)).map
        (fun p => p.currentNAV) = some (-1)
    ∧ (strikeOkPost (executeStrike wState (-1) 600 true gwAll)).map
        (fun p => p.lastStrikeTime) = some 600 :=
  executeStrike_no_nav_validation wState (-1) 600 gwAll (by norm_num)

/-- C7 counterexample: `queueOrder` with `amount = 0` does not fail with a
validation error: it succeeds and appends a pending zero-amount order to
the queue (length grows from 2 to 3) — the code contains no `amount > 0`
check. -/
theorem queueOrder_zero_amount_counterexample :
    (queueOrder wState 9 OrderType.subscribe 0 480).map
        (fun p => (p.1.status, p.1.amount, p.2.pendingOrders.length))
      = some (OrderStatus.pending, 0, 3) := rfl

/-- C7 (amended): `queueOrder` performs no validation of `amount`: for
every amount, including non-positive ones, it succeeds whenever the strike
schedule is non-empty, creating a pending order carrying that amount with
the next order id, appended at the end of the queue. -/
theorem queueOrder_no_amount_validation (s : EngineState) (inv : Nat)
    (t : OrderType) (a : ℚ) (now : Nat) (hs : s.strikeSchedule ≠ []) :
    (queueOrder s inv t a now).isSome = true
    ∧ ∀ o s', queueOrder s inv t a now = some (o, s') →
        o.status = OrderStatus.pending ∧ o.amount = a
        ∧ o.orderId = s.orderCounter + 1
        ∧ s'.pendingOrders = s.pendingOrders ++ [o]
        ∧ s'.orderCounter = s.orderCounter + 1 := by
  constructor
  · have h := getNextStrikeTime_isSome s.strikeSchedule now hs
    simpa [queueOrder] using h
  · intro o s' h
    rw [queueOrder] at h
    cases hf : getNextStrikeTime s.strikeSchedule now with
    | none => rw [hf] at h; simp at h
    | some st =>
      rw [hf] at h
      simp only [Option.map_some', Option.some.injEq] at h
      obtain ⟨ho, hs'⟩ := Prod.mk.injEq .. |>.mp h.symm |>.imp Eq.symm Eq.symm
      subst ho
      subst hs'
      exact ⟨rfl, rfl, rfl, rfl, rfl⟩

/-- Witness for the amended C7 at a negative amount. -/
theorem queueOrder_no_amount_validation_witness :
    (queueOrder wState 9 OrderType.subscribe (-5) 480).isSome = true
    ∧ ∀ o s', queueOrder wState 9 OrderType.subscribe (-5) 480 = some (o, s') →
        o.status = OrderStatus.pending ∧ o.amount = -5
        ∧ o.orderId = wState.orderCounter + 1
        ∧ s'.pendingOrders = wState.pendingOrders ++ [o]
        ∧ s'.orderCounter = wState.orderCounter + 1 :=
  queueOrder_no_amount_validation wState 9 OrderType.subscribe (-5) 480
    (by simp [wState])

end NavStrikes

namespace NavStrikes

/-- C8 counterexample: for the unsorted schedule `[12:00, 09:30]` at
`08:00`, the code returns 12:00 (the first entry in stored order exceeding
now) while the earliest entry strictly later than now is 09:30 — the
scheduler does not sort defensively. -/
theorem getNextStrikeTime_unsorted_counterexample :
    getNextStrikeTime [720, 570] 480 = some 720
    ∧ specNextStrikeTime [720, 570] 480 = some 570
    ∧ getNextStrikeTime [720, 570] 480 ≠ specNextStrikeTime [720, 570] 480 :=
  ⟨rfl, rfl, by decide⟩

/-- C8 (amended): `getNextStrikeTime` returns the first entry in stored
list order that is strictly later than now (an entry equal to now is
skipped), falling back to the first stored entry on the following day; it
does not sort defensively, so only when the schedule is already sorted
does it agree with the specified behaviour (earliest strictly-later entry,
else the earliest entry of the next day), here expressed by the
spec-modelled `specNextStrikeTime`. -/
theorem getNextStrikeTime_sorted_agrees_spec (schedule : List Nat) (now : Nat)
    (hs : schedule.Sorted (· ≤ ·)) :
    getNextStrikeTime schedule now = specNextStrikeTime schedule now :=
  getNextStrikeTime_sorted schedule now hs

/-- Witness for the amended C8 on the sorted schedule `[09:30, 12:00]` at
exactly 09:30 (the equal entry is skipped: both sides give 12:00). -/
theorem getNextStrikeTime_sorted_agrees_spec_witness :
    getNextStrikeTime [570, 720] 570 = specNextStrikeTime [570, 720] 570 :=
  getNextStrikeTime_sorted_agrees_spec [570, 720] 570 (by decide)

/-- C9 counterexample: a 100-unit subscription at NAV 3 submits
`floor((100/3) * 1e6) = 33333333` micro-shares to the ledger, but the
delta applied to `totalSharesOutstanding` is the untruncated `100/3`
shares, and `33333333 / 1e6 ≠ 100/3` — the truncated amount is not the
one recorded in the internal accounting. -/
theorem truncation_mismatch_counterexample :
    (processSubscription wStateNav3 100).1.sharesLegMicro = 33333333
    ∧ (processSubscription wStateNav3 100).2.totalSharesOutstanding
        - wStateNav3.totalSharesOutstanding = 100 / 3
    ∧ ((33333333 : ℚ)) / 1000000 ≠ (100 : ℚ) / 3 := by
  refine ⟨?_, ?_, by norm_num⟩
  · show floorMicro ((100 : ℚ) / wStateNav3.currentNAV) = 33333333
    have hnav : wStateNav3.currentNAV = 3 := rfl
    rw [hnav, floorMicro]
    rw [show ((100 : ℚ) / 3) * 1000000 = 100000000 / 3 by ring]
    refine Int.floor_eq_iff.mpr ⟨by norm_num, by norm_num⟩
  · show wStateNav3.totalSharesOutstanding + (100 : ℚ) / wStateNav3.currentNAV
        - wStateNav3.totalSharesOutstanding = 100 / 3
    have hnav : wStateNav3.currentNAV = 3 := rfl
    rw [hnav]
    ring

/-- C9 (amended): rounding on the submitted leg amounts truncates (floor,
hence toward zero and never up, on the nonnegative amounts of well-formed
orders), but it is applied only to the amounts submitted to the ledger;
the deltas applied to `totalAUM` and `totalSharesOutstanding` are the
untruncated computed amounts, so the recorded economic amount differs from
the submitted one whenever the computed amount is not a whole number of
base units. -/
theorem truncation_submitted_legs_only (s : EngineState) (a : ℚ)
    (ha : 0 ≤ a) (hnav : 0 ≤ s.currentNAV) :
    ((processSubscription s a).1.usdcLegMicro : ℚ) ≤ a * 1000000
    ∧ 0 ≤ (processSubscription s a).1.usdcLegMicro
    ∧ ((processSubscription s a).1.sharesLegMicro : ℚ)
        ≤ (a / s.currentNAV) * 1000000
    ∧ 0 ≤ (processSubscription s a).1.sharesLegMicro
    ∧ ((processRedemption s a).1.sharesLegMicro : ℚ) ≤ a * 1000000
    ∧ 0 ≤ (processRedemption s a).1.sharesLegMicro
    ∧ ((processRedemption s a).1.usdcLegMicro : ℚ)
        ≤ (a * s.currentNAV) * 1000000
    ∧ 0 ≤ (processRedemption s a).1.usdcLegMicro
    ∧ (processSubscription s a).2.totalAUM = s.totalAUM + a
    ∧ (processSubscription s a).2.totalSharesOutstanding
        = s.totalSharesOutstanding + a / s.currentNAV
    ∧ (processRedemption s a).2.totalAUM = s.totalAUM - a * s.currentNAV
    ∧ (processRedemption s a).2.totalSharesOutstanding
        = s.totalSharesOutstanding - a := by
  have hmicro_le : ∀ x : ℚ, ((floorMicro x : ℚ)) ≤ x * 1000000 := by
    intro x
    exact Int.floor_le (x * 1000000)
  have hmicro_nonneg : ∀ x : ℚ, 0 ≤ x → 0 ≤ floorMicro x := by
    intro x hx
    exact Int.le_floor.mpr (by push_cast; positivity)
  refine ⟨hmicro_le a, hmicro_nonneg a ha, hmicro_le _,
    hmicro_nonneg _ (div_nonneg ha hnav), hmicro_le a, hmicro_nonneg a ha,
    hmicro_le _, hmicro_nonneg _ (mul_nonneg ha hnav), rfl, rfl, rfl, rfl⟩

/-- Witness for the amended C9 at a 100-unit order and NAV 3. -/
theorem truncation_submitted_legs_only_witness :
    ((processSubscription wStateNav3 100).1.usdcLegMicro : ℚ) ≤ 100 * 1000000
    ∧ 0 ≤ (processSubscription wStateNav3 100).1.usdcLegMicro
    ∧ ((processSubscription wStateNav3 100).1.sharesLegMicro : ℚ)
        ≤ (100 / wStateNav3.currentNAV) * 1000000
    ∧ 0 ≤ (processSubscription wStateNav3 100).1.sharesLegMicro
    ∧ ((processRedemption wStateNav3 100).1.sharesLegMicro : ℚ) ≤ 100 * 1000000
    ∧ 0 ≤ (processRedemption wStateNav3 100).1.sharesLegMicro
    ∧ ((processRedemption wStateNav3 100).1.usdcLegMicro : ℚ)
        ≤ (100 * wStateNav3.currentNAV) * 1000000
    ∧ 0 ≤ (processRedemption wStateNav3 100).1.usdcLegMicro
    ∧ (processSubscription wStateNav3 100).2.totalAUM = wStateNav3.totalAUM + 100
    ∧ (processSubscription wStateNav3 100).2.totalSharesOutstanding
        = wStateNav3.totalSharesOutstanding + 100 / wStateNav3.currentNAV
    ∧ (processRedemption wStateNav3 100).2.totalAUM
        = wStateNav3.totalAUM - 100 * wStateNav3.currentNAV
    ∧ (processRedemption wStateNav3 100).2.totalSharesOutstanding
        = wStateNav3.totalSharesOutstanding - 100 :=
  truncation_submitted_legs_only wStateNav3 100 (by norm_num)
    (by show (0 : ℚ) ≤ 3; norm_num)

end NavStrikes

namespace NavStrikes

/-- C10: `getPendingOrders` returns a fresh copy of the engine's order
array: the returned reference is distinct from the queue's, the queue cell
is unchanged by the call, the copy's contents equal the queue's contents,
and overwriting the returned array (adding or removing elements) neither
changes the engine's queue cell nor the contents a subsequent
`getPendingOrders` call returns. -/
theorem getPendingOrders_fresh_copy (e : EngineRef) (h : OrderHeap)
    (hr : e.queueRef < h.cells.length) :
    (getPendingOrders e h).1 ≠ e.queueRef
    ∧ readCell (getPendingOrders e h).2 e.queueRef = readCell h e.queueRef
    ∧ readCell (getPendingOrders e h).2 (getPendingOrders e h).1
        = readCell h e.queueRef
    ∧ ∀ v : List StrikeOrder,
        readCell (writeCell (getPendingOrders e h).2 (getPendingOrders e h).1 v)
            e.queueRef
          = readCell h e.queueRef
        ∧ readCell
            (getPendingOrders e
              (writeCell (getPendingOrders e h).2 (getPendingOrders e h).1 v)).2
            (getPendingOrders e
              (writeCell (getPendingOrders e h).2 (getPendingOrders e h).1 v)).1
          = readCell h e.queueRef := by
  have hne : h.cells.length ≠ e.queueRef := Nat.ne_of_gt hr
  have hkeep : readCell (getPendingOrders e h).2 e.queueRef
      = readCell h e.queueRef := by
    show (h.cells ++ [readCell h e.queueRef]).getD e.queueRef []
      = h.cells.getD e.queueRef []
    exact cells_getD_append_lt h.cells _ e.queueRef [] hr
  have hwrite : ∀ v : List StrikeOrder,
      readCell (writeCell (getPendingOrders e h).2 (getPendingOrders e h).1 v)
        e.queueRef = readCell h e.queueRef := by
    intro v
    show ((h.cells ++ [readCell h e.queueRef]).set h.cells.length v).getD
        e.queueRef [] = h.cells.getD e.queueRef []
    rw [cells_getD_set_ne _ _ _ _ _ hne]
    exact cells_getD_append_lt h.cells _ e.queueRef [] hr
  refine ⟨hne, hkeep, ?_, fun v => ⟨hwrite v, ?_⟩⟩
  · show (h.cells ++ [readCell h e.queueRef]).getD h.cells.length []
      = readCell h e.queueRef
    exact cells_getD_append_self h.cells _ []
  · show ((writeCell (getPendingOrders e h).2 (getPendingOrders e h).1 v).cells
        ++ [readCell (writeCell (getPendingOrders e h).2
              (getPendingOrders e h).1 v) e.queueRef]).getD
        (writeCell (getPendingOrders e h).2 (getPendingOrders e h).1 v).cells.length []
      = readCell h e.queueRef
    rw [cells_getD_append_self]
    exact hwrite v

/-- Witness for C10 on a concrete two-cell heap holding the two-order
queue. -/
theorem getPendingOrders_fresh_copy_witness :
    (getPendingOrders wEngineRef wHeap).1 ≠ wEngineRef.queueRef
    ∧ readCell (getPendingOrders wEngineRef wHeap).2 wEngineRef.queueRef
        = readCell wHeap wEngineRef.queueRef
    ∧ readCell (getPendingOrders wEngineRef wHeap).2
        (getPendingOrders wEngineRef wHeap).1
        = readCell wHeap wEngineRef.queueRef
    ∧ ∀ v : List StrikeOrder,
        readCell (writeCell (getPendingOrders wEngineRef wHeap).2
            (getPendingOrders wEngineRef wHeap).1 v) wEngineRef.queueRef
          = readCell wHeap wEngineRef.queueRef
        ∧ readCell
            (getPendingOrders wEngineRef
              (writeCell (getPendingOrders wEngineRef wHeap).2
                (getPendingOrders wEngineRef wHeap).1 v)).2
            (getPendingOrders wEngineRef
              (writeCell (getPendingOrders wEngineRef wHeap).2
                (getPendingOrders wEngineRef wHeap).1 v)).1
          = readCell wHeap wEngineRef.queueRef :=
  getPendingOrders_fresh_copy wEngineRef wHeap (by decide)

end NavStrikes
